import Mathlib

/-!
Verification of the CONS3RT inventory plugin (`plugins/inventory/cons3rt.py`).

This file shallowly embeds the plugin's fetch engine: the retrying HTTP
transport (`Session.validate_target`, `Session.http_get`,
`Session.parse_response`), the three API-client operations (`get_drs`,
`get_dr_hosts`, `get_dr_host_details`), the two-stage fan-out orchestrator
(`InventoryModule._get_hosts` / `_query`), and the inventory population step
(`InventoryModule._add_hosts`).  Python dicts become association lists of
`JVal` values, the network becomes explicit oracles (an attempt-outcome oracle
for the retry loop, a `World` of parsed replies for the orchestrator), and
raised `Cons3rtClientError` / `KeyError` exceptions become `Except` errors.
-/

set_option maxRecDepth 16384

namespace Cons3rt

/-- A JSON scalar value as it appears inside the decoded response dicts.
Nested containers are not needed by any claim, so only the scalar shapes the
plugin actually inspects (`fapStatus` strings, `id` integers, absent/None) are
represented. -/
inductive JVal where
  | null
  | str (s : String)
  | num (n : Int)
  deriving DecidableEq, Repr, Inhabited

/-- Python truthiness of a `JVal`, used by `if not hostname` in
`InventoryModule._add_hosts` (line 250): `None`, the empty string and `0` are
falsy. -/
def JVal.falsy : JVal → Bool
  | .null => true
  | .str s => s = ""
  | .num n => n = 0

/-- A Python dict with string keys, as an association list.  Python dicts have
unique keys, which `update` preserves. -/
abbrev Dict := List (String × JVal)

/-- `d[k]` as a total lookup: `some` of the first binding of `k`, else `none`. -/
def Dict.lookup : Dict → String → Option JVal
  | [], _ => none
  | p :: rest, k => if p.1 = k then some p.2 else Dict.lookup rest k

/-- `d.update({k: v})` (Python `dict.update` with a single key): replace the
first binding of `k`, or append the pair if `k` is absent. -/
def Dict.update : Dict → String → JVal → Dict
  | [], k, v => [(k, v)]
  | p :: rest, k, v => if p.1 = k then (k, v) :: rest else p :: Dict.update rest k v

/-- A Python subscript `d[k]`: the value, or a raised `KeyError` when the key
is absent. -/
def pyLookup (d : Dict) (k : String) : Except String JVal :=
  match Dict.lookup d k with
  | some v => .ok v
  | none => .error ("KeyError: " ++ k)

/-! ### Substring machinery

Error-message claims say a message "contains" the per-attempt failure
messages, the status code, the headers or the body.  `containsSub s pat`
decides whether `pat` occurs contiguously inside `s`; it is executable so that
counterexamples can be settled by `decide`. -/

/-- `matchesAt pat l` is true when `pat` is an initial segment of `l`. -/
def matchesAt : List Char → List Char → Bool
  | [], _ => true
  | _ :: _, [] => false
  | p :: ps, c :: cs => p == c && matchesAt ps cs

/-- `sublistAt pat l` is true when `pat` occurs contiguously somewhere in `l`. -/
def sublistAt (pat : List Char) : List Char → Bool
  | [] => pat.isEmpty
  | c :: rest => matchesAt pat (c :: rest) || sublistAt pat rest

/-- `containsSub s pat` is true when `pat` occurs contiguously inside `s`. -/
def containsSub (s pat : String) : Bool :=
  sublistAt pat.data s.data

theorem matchesAt_append_self (p t : List Char) : matchesAt p (p ++ t) = true := by
  induction p with
  | nil => rfl
  | cons c cs ih => simp [matchesAt, ih]

theorem sublistAt_self_append (p t : List Char) : sublistAt p (p ++ t) = true := by
  cases hp : p with
  | nil =>
    cases t with
    | nil => rfl
    | cons c cs => simp [sublistAt, matchesAt]
  | cons c cs =>
    have h := matchesAt_append_self (c :: cs) t
    simp only [List.cons_append] at h ⊢
    simp [sublistAt, h]

theorem sublistAt_append_left (x p l : List Char) (h : sublistAt p l = true) :
    sublistAt p (x ++ l) = true := by
  induction x with
  | nil => simpa using h
  | cons c cs ih => simp [sublistAt, ih]

/-- `pat` occurs in `a ++ (pat ++ b)`. -/
theorem containsSub_middle (a p b : String) : containsSub (a ++ (p ++ b)) p = true := by
  unfold containsSub
  rw [String.data_append, String.data_append]
  exact sublistAt_append_left _ _ _ (sublistAt_self_append _ _)

/-- `pat` occurs in `pat ++ b`. -/
theorem containsSub_self_append (p b : String) : containsSub (p ++ b) p = true := by
  unfold containsSub
  rw [String.data_append]
  exact sublistAt_self_append _ _

/-- `pat` occurs in `a ++ pat`. -/
theorem containsSub_append_self (a p : String) : containsSub (a ++ p) p = true := by
  unfold containsSub
  rw [String.data_append]
  apply sublistAt_append_left
  have := sublistAt_self_append p.data []
  simpa using this

/-- Occurrence is preserved by prepending. -/
theorem containsSub_append_left (x s p : String) (h : containsSub s p = true) :
    containsSub (x ++ s) p = true := by
  unfold containsSub at h ⊢
  rw [String.data_append]
  exact sublistAt_append_left _ _ _ h

/-! ### Transport: `Session`, `validate_target`, `http_get`

`Session.__init__` (lines 61-65) fixes `max_retry_attempts = 10` and
`retry_time_sec = 5`; they are modelled as constant accessors.  The network is
an oracle `attempts : Nat → AttemptOutcome` giving, for each value of the
loop counter `attempt_num`, the outcome of `s.get(url)` on that attempt. -/

/-- The raw HTTP response (`requests.Response`): status code, the string
rendering of the headers dict (only ever interpolated into messages), and the
body already decoded as text.  `parse_response` takes the `isinstance(content,
str)` branch on this representation; an empty `content` models an absent body
(falsy `response.content`). -/
structure Response where
  status_code : Nat
  headers : String
  content : String
  deriving DecidableEq, Repr

/-- Outcome of one `s.get(url)` attempt.  `requests.exceptions.SSLError`
subclasses `RequestException`, so the source's second `except SSLError` handler
(line 110) is unreachable and every network-level failure is a
`requestException` carrying `str(exc)`. -/
inductive AttemptOutcome where
  | ok (response : Response)
  | requestException (msg : String)
  deriving DecidableEq, Repr

/-- A session to the CONS3RT API (lines 55-65).  Credentials only feed the
mounted adapter and headers, which the attempt oracle abstracts, so only the
base URL is carried. -/
structure Session where
  base : String
  deriving DecidableEq, Repr

/-- `self.max_retry_attempts = 10` (line 62). -/
def Session.max_retry_attempts (_ : Session) : Nat := 10

/-- `self.retry_time_sec = 5` (line 63). -/
def Session.retry_time_sec (_ : Session) : Nat := 5

/-- The `target` argument of `http_get` as a Python value: `None`, a `str`, or
some other non-string object (line 75 only distinguishes these three shapes). -/
inductive PyTarget where
  | pynone
  | pystr (s : String)
  | other
  deriving DecidableEq, Repr

/-- `Session.validate_target` (lines 67-76): raises `Cons3rtClientError` when
the target is `None` or not a string. -/
def validate_target : PyTarget → Except String Unit
  | .pystr _ => .ok ()
  | _ => .error "Invalid target arg provided"

/-- The per-attempt failure message built at line 108:
`'RequestException on GET attempt #{n}\n{e}'`. -/
def attemptErrMsg (attempt_num : Nat) (e : String) : String :=
  "RequestException on GET attempt #" ++ toString attempt_num ++ "\n" ++ e

/-- Result of `http_get`: the returned response together with the total time
slept in retry delays, or a raised `Cons3rtClientError` message (also with the
total time slept). -/
inductive HttpGetResult where
  | success (response : Response) (slept_sec : Nat)
  | clientError (msg : String) (slept_sec : Nat)
  deriving DecidableEq, Repr

/-- The `while True` retry loop of `Session.http_get` (lines 90-118).  The
guard `attempt_num >= max_retry_attempts` is represented by structural fuel
`remaining = max_retry_attempts - attempt_num`, which is `0` exactly when the
guard fires; `attempt_num` still counts up for the failure messages.  On a
failed attempt the message is appended to `err_msg_tally` followed by a
newline, the counter is incremented, and `time.sleep(retry_time_sec)` adds to
the slept total; a non-raising attempt returns its response immediately. -/
def http_get_loop (attempts : Nat → AttemptOutcome) (max_retry_attempts retry_time_sec : Nat) :
    Nat → Nat → String → Nat → HttpGetResult
  | 0, _attempt_num, err_msg_tally, slept =>
      .clientError
        ("Max attempts exceeded: " ++ toString max_retry_attempts ++ "\n" ++ err_msg_tally) slept
  | remaining + 1, attempt_num, err_msg_tally, slept =>
      match attempts attempt_num with
      | .ok response => .success response slept
      | .requestException e =>
          http_get_loop attempts max_retry_attempts retry_time_sec remaining (attempt_num + 1)
            (err_msg_tally ++ (attemptErrMsg attempt_num e ++ "\n")) (slept + retry_time_sec)

/-- `Session.http_get` (lines 78-118): validate the target, then run the retry
loop starting at `attempt_num = 1` with an empty tally.  The URL
`self.base + target` only feeds `s.get`, which the oracle abstracts. -/
def http_get (s : Session) (target : PyTarget) (attempts : Nat → AttemptOutcome) :
    HttpGetResult :=
  match validate_target target with
  | .error m => .clientError m 0
  | .ok _ =>
      http_get_loop attempts s.max_retry_attempts s.retry_time_sec
        (s.max_retry_attempts - 1) 1 "" 0

/-- The tally of failure messages accumulated by attempts
`attempt_num, attempt_num+1, …` over `remaining` further loop iterations,
assuming each such attempt raises (it returns early at a non-raising attempt,
where the loop would have returned). -/
def tallyFrom (attempts : Nat → AttemptOutcome) : Nat → Nat → String
  | 0, _ => ""
  | remaining + 1, attempt_num =>
      match attempts attempt_num with
      | .ok _ => ""
      | .requestException e =>
          attemptErrMsg attempt_num e ++ "\n" ++ tallyFrom attempts remaining (attempt_num + 1)

/-- `Session.parse_response` (lines 120-146): decode the body if present;
raise `Cons3rtClientError` embedding status, headers and (when present) body
unless the status code is `requests.codes.ok` (200) or 202; otherwise return
the decoded content (or `none` when there was no body). -/
def parse_response (response : Response) : Except String (Option String) :=
  let decoded_content : Option String :=
    if response.content ≠ "" then some response.content else none
  if response.status_code ≠ 200 ∧ response.status_code ≠ 202 then
    let msg := "Received HTTP code [" ++ toString response.status_code ++
      ("] with headers:\n" ++ response.headers)
    let msg :=
      match decoded_content with
      | some c => msg ++ ("\nand content:\n" ++ c)
      | none => msg
    .error msg
  else
    .ok decoded_content

/-! ### Retry-loop lemmas -/

/-- If the attempts at `attempt_num, …, attempt_num + j - 1` all raise and the
attempt at `attempt_num + j` (still within the fuel) returns a response, the
loop returns that response having slept `j` more delays. -/
theorem http_get_loop_success (attempts : Nat → AttemptOutcome) (maxA delay : Nat)
    (resp : Response) :
    ∀ (j remaining attempt_num : Nat) (tally : String) (slept : Nat),
      j < remaining →
      (∀ k, attempt_num ≤ k → k < attempt_num + j → ∃ e, attempts k = .requestException e) →
      attempts (attempt_num + j) = .ok resp →
      http_get_loop attempts maxA delay remaining attempt_num tally slept =
        .success resp (slept + j * delay) := by
  intro j
  induction j with
  | zero =>
    intro remaining attempt_num tally slept hlt _hfail hok
    match remaining, hlt with
    | r + 1, _ =>
      simp only [Nat.add_zero] at hok
      simp [http_get_loop, hok]
  | succ j ih =>
    intro remaining attempt_num tally slept hlt hfail hok
    match remaining, hlt with
    | r + 1, hlt =>
      obtain ⟨e, he⟩ := hfail attempt_num (Nat.le_refl _) (by omega)
      have hrec := ih r (attempt_num + 1) (tally ++ (attemptErrMsg attempt_num e ++ "\n"))
        (slept + delay) (by omega)
        (fun k hk1 hk2 => hfail k (by omega) (by omega))
        (by rw [show attempt_num + 1 + j = attempt_num + (j + 1) by omega]; exact hok)
      have harith : slept + delay + j * delay = slept + (j + 1) * delay := by ring
      rw [harith] at hrec
      simp only [http_get_loop, he, hrec]

/-- If every attempt from `attempt_num` through the end of the fuel raises,
the loop raises `Cons3rtClientError` with the accumulated tally and one slept
delay per failed attempt. -/
theorem http_get_loop_exhaust (attempts : Nat → AttemptOutcome) (maxA delay : Nat) :
    ∀ (remaining attempt_num : Nat) (tally : String) (slept : Nat),
      (∀ k, attempt_num ≤ k → k < attempt_num + remaining → ∃ e, attempts k = .requestException e) →
      http_get_loop attempts maxA delay remaining attempt_num tally slept =
        .clientError
          ("Max attempts exceeded: " ++ toString maxA ++ "\n" ++
            (tally ++ tallyFrom attempts remaining attempt_num))
          (slept + remaining * delay) := by
  intro remaining
  induction remaining with
  | zero =>
    intro attempt_num tally slept _hfail
    simp [http_get_loop, tallyFrom]
  | succ r ih =>
    intro attempt_num tally slept hfail
    obtain ⟨e, he⟩ := hfail attempt_num (Nat.le_refl _) (by omega)
    have hrec := ih (attempt_num + 1) (tally ++ (attemptErrMsg attempt_num e ++ "\n"))
      (slept + delay) (fun k hk1 hk2 => hfail k (by omega) (by omega))
    have harith : slept + delay + r * delay = slept + (r + 1) * delay := by ring
    rw [harith] at hrec
    simp only [http_get_loop, he, hrec, tallyFrom]
    simp [String.append_assoc]

/-- The loop's result depends only on the outcomes of the attempts it can
reach: attempts numbered `attempt_num, …, attempt_num + remaining - 1`. -/
theorem http_get_loop_congr (a1 a2 : Nat → AttemptOutcome) (maxA delay : Nat) :
    ∀ (remaining attempt_num : Nat) (tally : String) (slept : Nat),
      (∀ n, attempt_num ≤ n → n < attempt_num + remaining → a1 n = a2 n) →
      http_get_loop a1 maxA delay remaining attempt_num tally slept =
        http_get_loop a2 maxA delay remaining attempt_num tally slept := by
  intro remaining
  induction remaining with
  | zero => intro attempt_num tally slept _h; rfl
  | succ r ih =>
    intro attempt_num tally slept h
    rw [http_get_loop, http_get_loop, h attempt_num (Nat.le_refl _) (by omega)]
    cases a2 attempt_num with
    | ok resp => rfl
    | requestException e =>
      exact ih (attempt_num + 1) _ _ (fun n hn1 hn2 => h n (by omega) (by omega))

/-- Under the all-raise hypothesis, the tally contains the failure message of
every attempt in range. -/
theorem tallyFrom_contains (attempts : Nat → AttemptOutcome) :
    ∀ (remaining attempt_num n : Nat) (e : String),
      attempt_num ≤ n → n < attempt_num + remaining →
      (∀ k, attempt_num ≤ k → k < attempt_num + remaining → ∃ d, attempts k = .requestException d) →
      attempts n = .requestException e →
      containsSub (tallyFrom attempts remaining attempt_num) (attemptErrMsg n e) = true := by
  intro remaining
  induction remaining with
  | zero => intro _ n _ h1 h2 _ _; omega
  | succ r ih =>
    intro attempt_num n e hge hlt hfail hn
    rcases Nat.eq_or_lt_of_le hge with heq | hgt
    · subst heq
      simp only [tallyFrom, hn]
      rw [String.append_assoc]
      exact containsSub_self_append _ _
    · obtain ⟨d, hd⟩ := hfail attempt_num (Nat.le_refl _) (by omega)
      simp only [tallyFrom, hd]
      rw [String.append_assoc]
      apply containsSub_append_left
      exact ih (attempt_num + 1) n e (by omega) (by omega)
        (fun k hk1 hk2 => hfail k (by omega) (by omega)) hn

/-! ### API client (lines 148-165)

`get_drs`, `get_dr_hosts` and `get_dr_host_details` call `http_get` and then
`json.loads(….content.decode('utf-8'))` on whatever response comes back —
`parse_response` is never called and the status code is never inspected.  For
the retry-visible claim the raw pipeline `get_drs_op` keeps the attempt oracle
and an abstract `loads` standing for `json.loads`; for the orchestrator claims
a `World` carries the already-decoded replies of the three endpoints. -/

/-- The target string of `get_drs` (line 149). -/
def drsTarget : String := "/api/drs?search_type=SEARCH_AVAILABLE&in_project=true"

/-- `Session.get_drs` (lines 148-151) over the raw transport: whatever
response `http_get` returns (its status code is never looked at) has its body
decoded by `loads` (standing for `json.loads`); a `Cons3rtClientError` from
`http_get` propagates. -/
def get_drs_op (loads : String → List Dict) (s : Session) (attempts : Nat → AttemptOutcome) :
    Except String (List Dict) :=
  match http_get s (.pystr drsTarget) attempts with
  | .success r _ => .ok (loads r.content)
  | .clientError m _ => .error m

/-- The decoded reply of `GET /api/drs/{id}`: a dict with at least `name` and
`deploymentRunHosts` (the two keys `get_dr_hosts` reads; the code would raise
`KeyError` were either absent). -/
structure DeploymentRunDoc where
  name : String
  deploymentRunHosts : List Dict
  deriving DecidableEq, Repr, Inhabited

/-- The remote state as seen after JSON decoding, on an invocation where every
HTTP call succeeds (the orchestrator claims are about such invocations; the
retry/failure behaviour is settled against `http_get` separately):
`runs` is the decoded `get_drs` reply, `runDoc id` the decoded
`GET /api/drs/{id}` reply and `hostDetail id hostId` the decoded
`GET /api/drs/{id}/host/{hostId}` reply. -/
structure World where
  runs : List Dict
  runDoc : JVal → DeploymentRunDoc
  hostDetail : JVal → JVal → Dict

/-- `Session.get_dr_hosts` (lines 153-158): fetch the run document and stamp
every element of its `deploymentRunHosts` with `{drId: deployment_run_id}` and
`{drName: deployment_run['name']}` (in that order) before returning the list. -/
def get_dr_hosts (w : World) (deployment_run_id : JVal) : List Dict :=
  let deployment_run := w.runDoc deployment_run_id
  deployment_run.deploymentRunHosts.map fun d =>
    Dict.update (Dict.update d "drId" deployment_run_id) "drName" (.str deployment_run.name)

/-- `Session.get_dr_host_details` (lines 160-165): fetch the host document and
stamp it with `{drId: deployment_run_id}` then `{drName: deployment_run_name}`. -/
def get_dr_host_details (w : World)
    (deployment_run_id deployment_run_host_id deployment_run_name : JVal) : Dict :=
  Dict.update
    (Dict.update (w.hostDetail deployment_run_id deployment_run_host_id)
      "drId" deployment_run_id)
    "drName" deployment_run_name

/-! ### Fetch orchestrator (lines 191-231)

Stage 1 (lines 201-208): iterate the decoded runs in order, submitting
`get_dr_hosts(dr['id'])` for each run with `dr['fapStatus'] == "RESERVED"`;
the futures are then read **in submission order** (`for r in results:
dr_hosts.extend(r.result())`).  Stage 2 (lines 212-219) is the same shape over
the collected host stubs with `get_dr_host_details(dr_host['drId'],
dr_host['id'], dr_host['drName'])`.  Thread-pool nondeterminism is modelled as
a completion `schedule`: the list of future indices in the order the pool
finishes them.  `runTasks` produces the completed futures in that order and
`fanIn` reads them back in submission order, as the source does; `r.result()`
on a future the schedule never completes would block forever, which `fanIn`
signals as `none`. -/

/-- Stage-1 submissions: the `dr['id']` arguments of the `get_dr_hosts` calls,
in iteration order, restricted to runs whose `fapStatus` equals `"RESERVED"`;
a missing `fapStatus` or `id` key raises `KeyError` as in Python. -/
def stage1Tasks : List Dict → Except String (List JVal)
  | [] => .ok []
  | dr :: rest =>
    match pyLookup dr "fapStatus" with
    | .error e => .error e
    | .ok v =>
      if v = JVal.str "RESERVED" then
        match pyLookup dr "id" with
        | .error e => .error e
        | .ok i =>
          match stage1Tasks rest with
          | .error e => .error e
          | .ok t => .ok (i :: t)
      else stage1Tasks rest

/-- Stage-2 submissions: the `(dr_host['drId'], dr_host['id'],
dr_host['drName'])` argument triples, in iteration order over the collected
stubs. -/
def stage2Tasks : List Dict → Except String (List (JVal × JVal × JVal))
  | [] => .ok []
  | dr_host :: rest =>
    match pyLookup dr_host "drId" with
    | .error e => .error e
    | .ok a =>
      match pyLookup dr_host "id" with
      | .error e => .error e
      | .ok b =>
        match pyLookup dr_host "drName" with
        | .error e => .error e
        | .ok c =>
          match stage2Tasks rest with
          | .error e => .error e
          | .ok t => .ok ((a, b, c) :: t)

/-- The pool's completed futures, as `(submission index, task result)` pairs
in completion order given by `schedule`. -/
def runTasks (f : α → β) (tasks : List α) (schedule : List Nat) : List (Nat × β) :=
  schedule.filterMap fun i => (tasks[i]?).map fun t => (i, f t)

/-- `r.result()` for the future with submission index `i`: its completed
value, or `none` if the pool never completes it (a blocked join). -/
def futureResult (pool : List (Nat × β)) (i : Nat) : Option β :=
  (pool.find? fun p => p.1 == i).map fun p => p.2

/-- The fan-in loops (`for r in results: …`): read every future in submission
order; `none` if any read would block forever. -/
def fanIn (n : Nat) (pool : List (Nat × β)) : Option (List β) :=
  (List.range n).mapM (futureResult pool)

/-- `InventoryModule._get_hosts` (lines 191-221) under completion schedules
`sched1` and `sched2` for the two pools. -/
def get_hosts (w : World) (sched1 sched2 : List Nat) : Except String (List Dict) :=
  match stage1Tasks w.runs with
  | .error e => .error e
  | .ok tasks1 =>
    match fanIn tasks1.length (runTasks (get_dr_hosts w) tasks1 sched1) with
    | none => .error "stage 1 fan-in blocked"
    | some perRun =>
      match stage2Tasks perRun.flatten with
      | .error e => .error e
      | .ok tasks2 =>
        match fanIn tasks2.length
            (runTasks (fun t => get_dr_host_details w t.1 t.2.1 t.2.2) tasks2 sched2) with
        | none => .error "stage 2 fan-in blocked"
        | some all_dr_hosts => .ok all_dr_hosts

/-- The schedule-free reading of `_get_hosts`: both fan-ins collect every
result in submission order. -/
def get_hosts_det (w : World) : Except String (List Dict) :=
  match stage1Tasks w.runs with
  | .error e => .error e
  | .ok tasks1 =>
    match stage2Tasks ((tasks1.map (get_dr_hosts w)).flatten) with
    | .error e => .error e
    | .ok tasks2 => .ok (tasks2.map fun t => get_dr_host_details w t.1 t.2.1 t.2.2)

/-- The sort key `lambda x: x['id']` (line 230).  In the deployments the code
supports every host detail carries an integer `id`; for a missing or
non-integer `id` Python's `sorted` would raise (`KeyError`/`TypeError`), and
the total model defaults those to `0`. -/
def hostIdKey (host : Dict) : Int :=
  match Dict.lookup host "id" with
  | some (JVal.num n) => n
  | _ => 0

/-- `sorted(hosts, key=lambda x: x['id'])` (line 230): Python's sorted is a
stable ascending merge sort on the key. -/
def sortHosts (hosts : List Dict) : List Dict :=
  hosts.mergeSort fun a b => hostIdKey a ≤ hostIdKey b

/-- `InventoryModule._query` (lines 223-231): sort the collected details by
host id and wrap them in `{'cons3rt': hosts}`. -/
def query (w : World) (sched1 sched2 : List Nat) : Except String (List (String × List Dict)) :=
  match get_hosts w sched1 sched2 with
  | .error e => .error e
  | .ok hosts => .ok [("cons3rt", sortHosts hosts)]

/-- The number of stage-1 submissions (on the success path). -/
def stage1Count (w : World) : Nat :=
  match stage1Tasks w.runs with
  | .ok t => t.length
  | .error _ => 0

/-- The stubs collected by the stage-1 fan-in on the success path. -/
def canonDrHosts (w : World) : List Dict :=
  match stage1Tasks w.runs with
  | .ok t => (t.map (get_dr_hosts w)).flatten
  | .error _ => []

/-- The number of stage-2 submissions (on the success path). -/
def stage2Count (w : World) : Nat :=
  match stage2Tasks (canonDrHosts w) with
  | .ok t => t.length
  | .error _ => 0

/-- A schedule eventually completes every one of `n` submitted futures.  Any
run of the real pool completes each submitted task exactly once; this Boolean
form is what a thread schedule must satisfy for both fan-in joins to finish. -/
def coversB (sched : List Nat) (n : Nat) : Bool :=
  (List.range n).all fun i => sched.contains i

/-! ### Inventory population (lines 239-266)

`_add_hosts` reads `host['systemRole']` (a `KeyError` when absent), converts
the record with the external `camel_dict_to_snake_dict` helper (modelled as an
opaque `snake` function), skips the host when the hostname is falsy, and
otherwise registers the host with the converted record as its variables.  The
sink's input is modelled as the ordered list of `(hostname, variables)`
registrations. -/

/-- `InventoryModule._add_hosts` (lines 239-266). -/
def add_hosts (snake : Dict → Dict) : List Dict → Except String (List (JVal × Dict))
  | [] => .ok []
  | host :: rest =>
    match Dict.lookup host "systemRole" with
    | none => .error "KeyError: systemRole"
    | some hostname =>
      let host_vars := snake host
      if hostname.falsy then add_hosts snake rest
      else
        match add_hosts snake rest with
        | .error e => .error e
        | .ok regs => .ok ((hostname, host_vars) :: regs)

/-! ### Dict lemmas -/

theorem Dict.lookup_update_self (d : Dict) (k : String) (v : JVal) :
    Dict.lookup (Dict.update d k v) k = some v := by
  induction d with
  | nil => simp [Dict.update, Dict.lookup]
  | cons p rest ih =>
    by_cases h : p.1 = k
    · simp [Dict.update, Dict.lookup, h]
    · simp [Dict.update, Dict.lookup, h, ih]

theorem Dict.lookup_update_ne (d : Dict) (k k2 : String) (v : JVal) (h : k2 ≠ k) :
    Dict.lookup (Dict.update d k v) k2 = Dict.lookup d k2 := by
  induction d with
  | nil => simp [Dict.update, Dict.lookup, Ne.symm h]
  | cons p rest ih =>
    by_cases hp : p.1 = k
    · simp [Dict.update, Dict.lookup, hp, h, Ne.symm h]
    · by_cases hp2 : p.1 = k2
      · simp [Dict.update, Dict.lookup, hp, hp2, h]
      · simp [Dict.update, Dict.lookup, hp, hp2, ih]

/-! ### Executor lemmas -/

theorem find_runTasks [Inhabited α] (f : α → β) (tasks : List α) (sched : List Nat) (i : Nat)
    (hmem : i ∈ sched) (hlen : i < tasks.length) :
    (runTasks f tasks sched).find? (fun p => p.1 == i) =
      some (i, f (tasks.getD i default)) := by
  have hget : tasks[i]? = some (tasks.getD i default) := by
    rw [List.getD_eq_getElem?_getD, List.getElem?_eq_getElem hlen]
    rfl
  induction sched with
  | nil => cases hmem
  | cons j rest ih =>
    by_cases hji : j = i
    · subst hji
      unfold runTasks
      rw [List.filterMap_cons, hget, Option.map_some']
      exact List.find?_cons_of_pos _ (by simp)
    · have hmem2 : i ∈ rest := by
        rcases List.mem_cons.mp hmem with h1 | h2
        · exact absurd h1.symm hji
        · exact h2
      unfold runTasks
      rw [List.filterMap_cons]
      cases htj : tasks[j]? with
      | none => exact ih hmem2
      | some t =>
        rw [Option.map_some']
        rw [List.find?_cons_of_neg _ (by simp [hji])]
        exact ih hmem2

theorem mapM_option_eq_map (g : Nat → Option β) (h : Nat → β) (l : List Nat)
    (hg : ∀ i ∈ l, g i = some (h i)) : l.mapM g = some (l.map h) := by
  induction l with
  | nil => rfl
  | cons a l ih =>
    rw [List.mapM_cons, hg a (List.mem_cons_self a l), ih (fun i hi => hg i (List.mem_cons_of_mem a hi))]
    rfl

theorem range_map_getD [Inhabited α] (l : List α) (g : α → β) :
    (List.range l.length).map (fun i => g (l.getD i default)) = l.map g := by
  apply List.ext_getElem
  · simp
  · intro n h1 h2
    simp only [List.getElem_map, List.getElem_range]
    have hn : n < l.length := by simpa using h2
    rw [List.getD_eq_getElem?_getD, List.getElem?_eq_getElem hn]
    rfl

/-- Whenever the schedule completes every submitted future, the fan-in read in
submission order collects exactly the per-task results, in submission order —
independently of the completion order. -/
theorem fanIn_runTasks [Inhabited α] (f : α → β) (tasks : List α) (sched : List Nat)
    (h : ∀ i, i < tasks.length → i ∈ sched) :
    fanIn tasks.length (runTasks f tasks sched) = some (tasks.map f) := by
  unfold fanIn
  rw [mapM_option_eq_map _ (fun i => f (tasks.getD i default))]
  · rw [range_map_getD]
  · intro i hi
    have hlen := List.mem_range.mp hi
    unfold futureResult
    rw [find_runTasks f tasks sched i (h i hlen) hlen]
    rfl

theorem coversB_mem {sched : List Nat} {n : Nat} (h : coversB sched n = true) :
    ∀ i, i < n → i ∈ sched := by
  intro i hi
  have := List.all_eq_true.mp h i (List.mem_range.mpr hi)
  simpa using this

/-! ### Stage soundness lemmas -/

/-- Every stage-1 submission id is the `id` of a run whose `fapStatus` is
`"RESERVED"`. -/
theorem stage1Tasks_sound (drs : List Dict) (t1 : List JVal)
    (h : stage1Tasks drs = .ok t1) :
    ∀ j ∈ t1, ∃ dr ∈ drs,
      Dict.lookup dr "fapStatus" = some (JVal.str "RESERVED") ∧
      Dict.lookup dr "id" = some j := by
  induction drs generalizing t1 with
  | nil =>
    cases h
    intro j hj
    cases hj
  | cons dr rest ih =>
    intro j hj
    unfold stage1Tasks at h
    cases hfap : pyLookup dr "fapStatus" with
    | error e => simp only [hfap] at h; exact Except.noConfusion h
    | ok v =>
      simp only [hfap] at h
      by_cases hres : v = JVal.str "RESERVED"
      · rw [if_pos hres] at h
        cases hid : pyLookup dr "id" with
        | error e => simp only [hid] at h; exact Except.noConfusion h
        | ok i =>
          simp only [hid] at h
          cases hrest : stage1Tasks rest with
          | error e => simp only [hrest] at h; exact Except.noConfusion h
          | ok t =>
            simp only [hrest, Except.ok.injEq] at h
            subst h
            rcases List.mem_cons.mp hj with hji | hjt
            · subst hji
              refine ⟨dr, List.mem_cons_self _ _, ?_, ?_⟩
              · unfold pyLookup at hfap
                cases hl : Dict.lookup dr "fapStatus" with
                | none => rw [hl] at hfap; cases hfap
                | some u => rw [hl] at hfap; cases hfap; rw [hres]
              · unfold pyLookup at hid
                cases hl : Dict.lookup dr "id" with
                | none => rw [hl] at hid; cases hid
                | some u => rw [hl] at hid; cases hid; rfl
            · obtain ⟨dr2, hdr2, h1, h2⟩ := ih t hrest j hjt
              exact ⟨dr2, List.mem_cons_of_mem _ hdr2, h1, h2⟩
      · rw [if_neg hres] at h
        obtain ⟨dr2, hdr2, h1, h2⟩ := ih t1 h j hj
        exact ⟨dr2, List.mem_cons_of_mem _ hdr2, h1, h2⟩

/-- Every stage-2 submission's first argument is the `drId` of one of the
collected stubs. -/
theorem stage2Tasks_sound (stubs : List Dict) (t2 : List (JVal × JVal × JVal))
    (h : stage2Tasks stubs = .ok t2) :
    ∀ trip ∈ t2, ∃ s ∈ stubs, Dict.lookup s "drId" = some trip.1 := by
  induction stubs generalizing t2 with
  | nil =>
    cases h
    intro trip htrip
    cases htrip
  | cons s rest ih =>
    intro trip htrip
    unfold stage2Tasks at h
    cases ha : pyLookup s "drId" with
    | error e => simp only [ha] at h; exact Except.noConfusion h
    | ok a =>
      simp only [ha] at h
      cases hb : pyLookup s "id" with
      | error e => simp only [hb] at h; exact Except.noConfusion h
      | ok b =>
        simp only [hb] at h
        cases hc : pyLookup s "drName" with
        | error e => simp only [hc] at h; exact Except.noConfusion h
        | ok c =>
          simp only [hc] at h
          cases hrest : stage2Tasks rest with
          | error e => simp only [hrest] at h; exact Except.noConfusion h
          | ok t =>
            simp only [hrest, Except.ok.injEq] at h
            subst h
            rcases List.mem_cons.mp htrip with hts | htt
            · subst hts
              refine ⟨s, List.mem_cons_self _ _, ?_⟩
              unfold pyLookup at ha
              cases hl : Dict.lookup s "drId" with
              | none => rw [hl] at ha; cases ha
              | some u => rw [hl] at ha; cases ha; rfl
            · obtain ⟨s2, hs2, h1⟩ := ih t hrest trip htt
              exact ⟨s2, List.mem_cons_of_mem _ hs2, h1⟩

/-- Every stub produced by `get_dr_hosts` carries `drId = deployment_run_id`. -/
theorem get_dr_hosts_drId (w : World) (rid : JVal) (d : Dict)
    (hd : d ∈ get_dr_hosts w rid) : Dict.lookup d "drId" = some rid := by
  unfold get_dr_hosts at hd
  obtain ⟨d0, _hd0, rfl⟩ := List.mem_map.mp hd
  rw [Dict.lookup_update_ne _ _ _ _ (by decide)]
  exact Dict.lookup_update_self _ _ _

/-- Under schedules that complete every future, `_get_hosts` computes its
schedule-free reading. -/
theorem get_hosts_eq_det (w : World) (s1 s2 : List Nat)
    (h1 : coversB s1 (stage1Count w) = true) (h2 : coversB s2 (stage2Count w) = true) :
    get_hosts w s1 s2 = get_hosts_det w := by
  unfold get_hosts get_hosts_det
  cases hst1 : stage1Tasks w.runs with
  | error e => rfl
  | ok t1 =>
    have hc1 : ∀ i, i < t1.length → i ∈ s1 := by
      intro i hi
      apply coversB_mem h1
      unfold stage1Count
      rw [hst1]
      exact hi
    simp only [fanIn_runTasks (get_dr_hosts w) t1 s1 hc1]
    cases hst2 : stage2Tasks ((t1.map (get_dr_hosts w)).flatten) with
    | error e => simp only [hst2]
    | ok t2 =>
      have hc2 : ∀ i, i < t2.length → i ∈ s2 := by
        intro i hi
        apply coversB_mem h2
        unfold stage2Count canonDrHosts
        rw [hst1, hst2]
        exact hi
      simp only [hst2, fanIn_runTasks (fun t => get_dr_host_details w t.1 t.2.1 t.2.2) t2 s2 hc2]

/-! ### More substring lemmas (appending on the right) -/

theorem matchesAt_append_right (p l y : List Char) (h : matchesAt p l = true) :
    matchesAt p (l ++ y) = true := by
  induction p generalizing l with
  | nil => rfl
  | cons a ps ih =>
    cases l with
    | nil => exact absurd h (by simp [matchesAt])
    | cons c cs =>
      simp only [matchesAt, Bool.and_eq_true] at h
      simp only [List.cons_append, matchesAt, Bool.and_eq_true]
      exact ⟨h.1, ih cs h.2⟩

theorem sublistAt_nil_pat (l : List Char) : sublistAt [] l = true := by
  cases l with
  | nil => rfl
  | cons c cs => simp [sublistAt, matchesAt]

theorem sublistAt_append_right (p l y : List Char) (h : sublistAt p l = true) :
    sublistAt p (l ++ y) = true := by
  induction l with
  | nil =>
    simp only [sublistAt, List.isEmpty_iff] at h
    subst h
    simpa using sublistAt_nil_pat y
  | cons c cs ih =>
    simp only [sublistAt, Bool.or_eq_true] at h
    rcases h with h | h
    · simp only [List.cons_append, sublistAt, Bool.or_eq_true]
      exact Or.inl (matchesAt_append_right p (c :: cs) y h)
    · simp only [List.cons_append, sublistAt, Bool.or_eq_true]
      exact Or.inr (ih h)

/-- Occurrence is preserved by appending. -/
theorem containsSub_append_right (s y p : String) (h : containsSub s p = true) :
    containsSub (s ++ y) p = true := by
  unfold containsSub at h ⊢
  rw [String.data_append]
  exact sublistAt_append_right _ _ _ h

/-! ### Demo inputs shared by witnesses and counterexamples -/

/-- A concrete session. -/
def sessD : Session := { base := "api.example.com/rest" }

/-- An attempt oracle on which every GET attempt raises a network error. -/
def attemptsAllFail : Nat → AttemptOutcome := fun _ => .requestException "boom"

/-- A concrete successful response. -/
def respOK : Response := { status_code := 200, headers := "hdr", content := "body" }

/-- An oracle whose attempts 1..9 raise and whose attempt 10 would succeed. -/
def attempts9fail : Nat → AttemptOutcome := fun n =>
  if n ≤ 9 then .requestException "boom" else .ok respOK

/-- An oracle whose attempts 1..2 raise and whose attempt 3 succeeds. -/
def attempts2fail : Nat → AttemptOutcome := fun n =>
  if n ≤ 2 then .requestException "boom" else .ok respOK

/-! ## Claim C1 -/

/-- Claim C1, counterexample.  With every attempt raising
(`attemptsAllFail`), `http_get` raises after only nine failed attempts:
the error message carries the tally of attempts 1..9 and does **not** contain
the failure message a tenth attempt would have produced, refuting "the message
contains the failure messages of all 10 attempts". -/
theorem C1_counterexample :
    http_get sessD (.pystr "/api/x") attemptsAllFail =
      .clientError ("Max attempts exceeded: 10\n" ++ tallyFrom attemptsAllFail 9 1) 45 ∧
    containsSub ("Max attempts exceeded: 10\n" ++ tallyFrom attemptsAllFail 9 1)
      (attemptErrMsg 10 "boom") = false ∧
    containsSub ("Max attempts exceeded: 10\n" ++ tallyFrom attemptsAllFail 9 1)
      (attemptErrMsg 9 "boom") = true := by
  refine ⟨by rfl, by decide, by decide⟩

/-- Claim C1 (amended): if every GET attempt fails with a network error,
`http_get` stops once the attempt counter reaches `max_attempts` (10) and
raises a `Cons3rtClientError` whose message contains the failure messages of
all **nine** attempts actually made — the guard `attempt_num >=
max_retry_attempts` fires before a tenth attempt is issued, and 45 seconds
(9 retry delays) have been slept. -/
theorem C1_retry_exhaustion (s : Session) (tgt : String) (attempts : Nat → AttemptOutcome)
    (hfail : ∀ k, 1 ≤ k → k ≤ 9 → ∃ e, attempts k = .requestException e) :
    http_get s (.pystr tgt) attempts =
      .clientError ("Max attempts exceeded: 10\n" ++ tallyFrom attempts 9 1) 45 ∧
    ∀ n e, 1 ≤ n → n ≤ 9 → attempts n = .requestException e →
      containsSub ("Max attempts exceeded: 10\n" ++ tallyFrom attempts 9 1)
        (attemptErrMsg n e) = true := by
  constructor
  · show http_get_loop attempts 10 5 9 1 "" 0 = _
    rw [http_get_loop_exhaust attempts 10 5 9 1 "" 0 (fun k hk1 hk2 => hfail k hk1 (by omega))]
    rfl
  · intro n e hn1 hn9 hne
    apply containsSub_append_left
    exact tallyFrom_contains attempts 9 1 n e hn1 (by omega)
      (fun k hk1 hk2 => hfail k hk1 (by omega)) hne

/-- Claim C1, witness: on `attemptsAllFail` the raised message contains the
ninth attempt's failure message. -/
theorem C1_witness :
    containsSub ("Max attempts exceeded: 10\n" ++ tallyFrom attemptsAllFail 9 1)
      (attemptErrMsg 9 "boom") = true :=
  (C1_retry_exhaustion sessD "/api/x" attemptsAllFail
      (fun _k _h1 _h9 => ⟨"boom", rfl⟩)).2 9 "boom" (by omega) (by omega) rfl

/-! ## Claim C2 -/

/-- Claim C2, counterexample.  The claim quantifies over every `N < 10`; at
`N = 9` (attempts 1..9 raise, attempt 10 would succeed) `http_get` does not
return the successful response — it raises `Cons3rtClientError`, because the
guard fires before the tenth attempt is issued. -/
theorem C2_counterexample :
    http_get sessD (.pystr "/api/x") attempts9fail =
      .clientError ("Max attempts exceeded: 10\n" ++ tallyFrom attempts9fail 9 1) 45 := by
  rfl

/-- Claim C2 (amended): for every `N < 9`, if the first `N` GET attempts raise
a network error (`RequestException`) and the `(N+1)`-th attempt succeeds,
`http_get` returns that response, having slept the fixed 5-second retry delay
after each of the `N` failed attempts (`N * 5` seconds in total).  The model
is a function, so the response is returned exactly once. -/
theorem C2_retry_success (s : Session) (tgt : String) (attempts : Nat → AttemptOutcome)
    (N : Nat) (resp : Response) (hN : N < 9)
    (hfail : ∀ k, 1 ≤ k → k ≤ N → ∃ e, attempts k = .requestException e)
    (hsucc : attempts (N + 1) = .ok resp) :
    http_get s (.pystr tgt) attempts = .success resp (N * 5) := by
  show http_get_loop attempts 10 5 9 1 "" 0 = _
  rw [http_get_loop_success attempts 10 5 resp N 9 1 "" 0 (by omega)
      (fun k hk1 hk2 => hfail k hk1 (by omega))
      (by rw [Nat.add_comm 1 N]; exact hsucc)]
  rw [Nat.zero_add]

/-- Claim C2, witness: two failures then a success returns the response after
10 seconds of retry delays. -/
theorem C2_witness : http_get sessD (.pystr "/api/x") attempts2fail = .success respOK 10 :=
  C2_retry_success sessD "/api/x" attempts2fail 2 respOK (by omega)
    (fun k _hk1 hk2 => ⟨"boom", by simp [attempts2fail, hk2]⟩) (by decide)

/-! ## Claim C3 -/

/-- Claim C3: `http_get` always terminates (the model is a total function
whose fuel `max_retry_attempts - attempt_num` mirrors the loop guard) and
issues at most `max_retry_attempts - 1 = 9` GET attempts.  Concretely:
(i) the result depends only on the outcomes of attempts 1..9;
(ii) if attempts 1..9 all raise, it raises `Cons3rtClientError` whose tally
consists of those (at most 9) per-attempt failure messages;
(iii) if some attempt `n ≤ 9` is the first that does not raise, its response
is returned. -/
theorem C3_http_get_bounded (s : Session) (tgt : String)
    (a1 a2 attempts : Nat → AttemptOutcome) :
    ((∀ n, 1 ≤ n → n ≤ 9 → a1 n = a2 n) →
      http_get s (.pystr tgt) a1 = http_get s (.pystr tgt) a2) ∧
    ((∀ k, 1 ≤ k → k ≤ 9 → ∃ e, attempts k = .requestException e) →
      http_get s (.pystr tgt) attempts =
        .clientError ("Max attempts exceeded: 10\n" ++ tallyFrom attempts 9 1) 45) ∧
    (∀ n resp, 1 ≤ n → n ≤ 9 →
      (∀ k, 1 ≤ k → k < n → ∃ e, attempts k = .requestException e) →
      attempts n = .ok resp →
      http_get s (.pystr tgt) attempts = .success resp ((n - 1) * 5)) := by
  refine ⟨?_, ?_, ?_⟩
  · intro h
    show http_get_loop a1 10 5 9 1 "" 0 = http_get_loop a2 10 5 9 1 "" 0
    exact http_get_loop_congr a1 a2 10 5 9 1 "" 0 (fun n hn1 hn2 => h n hn1 (by omega))
  · intro hfail
    show http_get_loop attempts 10 5 9 1 "" 0 = _
    rw [http_get_loop_exhaust attempts 10 5 9 1 "" 0 (fun k hk1 hk2 => hfail k hk1 (by omega))]
    rfl
  · intro n resp hn1 hn9 hfail hok
    show http_get_loop attempts 10 5 9 1 "" 0 = _
    rw [http_get_loop_success attempts 10 5 resp (n - 1) 9 1 "" 0 (by omega)
        (fun k hk1 hk2 => hfail k hk1 (by omega))
        (by rw [show 1 + (n - 1) = n by omega]; exact hok)]
    rw [Nat.zero_add]

/-- Claim C3, witness: with every attempt failing, the call terminates in the
bounded error outcome. -/
theorem C3_witness :
    http_get sessD (.pystr "/api/x") attemptsAllFail =
      .clientError ("Max attempts exceeded: 10\n" ++ tallyFrom attemptsAllFail 9 1) 45 :=
  (C3_http_get_bounded sessD "/api/x" attemptsAllFail attemptsAllFail attemptsAllFail).2.1
    (fun _k _h1 _h9 => ⟨"boom", rfl⟩)

/-! ## Claim C4 -/

/-- A response with a non-success status code and a JSON body. -/
def resp404 : Response := { status_code := 404, headers := "hdrs", content := "runs-json" }

/-- An oracle returning the 404 response on the first attempt. -/
def attempts404 : Nat → AttemptOutcome := fun _ => .ok resp404

/-- A concrete stand-in for `json.loads` on the bodies used in the demos. -/
def demoLoads : String → List Dict := fun s =>
  if s = "runs-json" then [[("id", JVal.num 1), ("fapStatus", JVal.str "RESERVED")]] else []

/-- Claim C4, counterexample.  `get_drs` hands the body of a status-404
response straight to `json.loads` and returns the decoded run list — a
response whose status is neither 200 nor 202 is accepted and JSON-decoded as
data, refuting the claim. -/
theorem C4_counterexample :
    get_drs_op demoLoads sessD attempts404 =
      .ok [[("id", JVal.num 1), ("fapStatus", JVal.str "RESERVED")]] := by
  rfl

/-- Claim C4 (amended): only `parse_response` restricts success to status 200
or 202, and the API-client operations never call it: `get_drs` JSON-decodes
the body of whatever response `http_get` hands back, with no restriction on
its status code (`get_dr_hosts` and `get_dr_host_details` are built the same
way).  In particular the decoded result depends only on the response body,
never on its status. -/
theorem C4_no_status_check (loads : String → List Dict) (s : Session)
    (attempts attempts2 : Nat → AttemptOutcome) (r r2 : Response) (slept slept2 : Nat)
    (h : http_get s (.pystr drsTarget) attempts = .success r slept)
    (h2 : http_get s (.pystr drsTarget) attempts2 = .success r2 slept2) :
    get_drs_op loads s attempts = .ok (loads r.content) ∧
    (r2.content = r.content → get_drs_op loads s attempts2 = get_drs_op loads s attempts) := by
  constructor
  · unfold get_drs_op
    simp only [h]
  · intro hc
    unfold get_drs_op
    simp only [h, h2, hc]

/-- Claim C4, witness: the 404 response's body is decoded as the run list. -/
theorem C4_witness : get_drs_op demoLoads sessD attempts404 = .ok (demoLoads resp404.content) :=
  (C4_no_status_check demoLoads sessD attempts404 attempts404 resp404 resp404 0 0
    (by rfl) (by rfl)).1

/-! ## Claim C5 -/

/-- The sorted list is ascending in the host-id key. -/
theorem sortHosts_sorted (hosts : List Dict) :
    (sortHosts hosts).Pairwise fun a b => hostIdKey a ≤ hostIdKey b := by
  unfold sortHosts
  refine List.Pairwise.imp ?_ (List.sorted_mergeSort ?_ ?_ hosts)
  · intro a b hab
    exact of_decide_eq_true hab
  · intro a b c hab hbc
    have hab2 := of_decide_eq_true hab
    have hbc2 := of_decide_eq_true hbc
    exact decide_eq_true (le_trans hab2 hbc2)
  · intro a b
    rcases le_total (hostIdKey a) (hostIdKey b) with h | h <;> simp [h]

/-- Claim C5: whenever the two completion schedules complete every submitted
future, `_query` returns `{'cons3rt': hosts}` with `hosts` the collected
detail list sorted ascending by the host `id` key, and the whole result is
identical for any two such schedules in both fan-out stages — the fan-in
reads futures in submission order, so the output is invariant to
execution-order nondeterminism. -/
theorem C5_sorted_invariant (w : World) (s1 s2 s1b s2b : List Nat)
    (h1 : coversB s1 (stage1Count w) = true) (h2 : coversB s2 (stage2Count w) = true)
    (h1b : coversB s1b (stage1Count w) = true) (h2b : coversB s2b (stage2Count w) = true) :
    query w s1 s2 = query w s1b s2b ∧
    ∀ raw, get_hosts w s1 s2 = .ok raw →
      query w s1 s2 = .ok [("cons3rt", sortHosts raw)] ∧
      (sortHosts raw).Perm raw ∧
      ((sortHosts raw).Pairwise fun a b => hostIdKey a ≤ hostIdKey b) := by
  constructor
  · unfold query
    rw [get_hosts_eq_det w s1 s2 h1 h2, get_hosts_eq_det w s1b s2b h1b h2b]
  · intro raw hraw
    refine ⟨?_, ?_, sortHosts_sorted raw⟩
    · unfold query
      simp only [hraw]
    · unfold sortHosts
      exact List.mergeSort_perm raw _

/-- A concrete world: two reserved runs (ids 1, 2) and one non-reserved run
(id 3); run 1 has hosts 12 and 11 (out of order), run 2 has host 21. -/
def wEx : World where
  runs := [[("id", JVal.num 1), ("fapStatus", JVal.str "RESERVED")],
           [("id", JVal.num 2), ("fapStatus", JVal.str "RESERVED")],
           [("id", JVal.num 3), ("fapStatus", JVal.str "ACTIVE")]]
  runDoc := fun rid =>
    if rid = JVal.num 1 then
      { name := "run-one", deploymentRunHosts := [[("id", JVal.num 12)], [("id", JVal.num 11)]] }
    else if rid = JVal.num 2 then
      { name := "run-two", deploymentRunHosts := [[("id", JVal.num 21)]] }
    else
      { name := "unused", deploymentRunHosts := [] }
  hostDetail := fun _rid hid =>
    if hid = JVal.num 11 then [("id", JVal.num 11), ("systemRole", JVal.str "app")]
    else if hid = JVal.num 12 then [("id", JVal.num 12), ("systemRole", JVal.str "db")]
    else [("id", JVal.num 21), ("systemRole", JVal.str "web")]

/-- Claim C5, witness: two different completion orders in both stages give
the same query result on `wEx`. -/
theorem C5_witness : query wEx [1, 0] [2, 0, 1] = query wEx [0, 1] [0, 1, 2] :=
  (C5_sorted_invariant wEx [1, 0] [2, 0, 1] [0, 1] [0, 1, 2]
    (by rfl) (by rfl) (by rfl) (by rfl)).1

/-! ## Claim C6 -/

/-- Claim C6: every stub returned by `get_dr_hosts` carries `drId` equal to
the run id and `drName` equal to the run document's name, and
`get_dr_host_details` stamps the decoded detail with the same pair. -/
theorem C6_parent_tagging (w : World) (rid hid rname : JVal) (d : Dict)
    (hd : d ∈ get_dr_hosts w rid) :
    (Dict.lookup d "drId" = some rid ∧
      Dict.lookup d "drName" = some (JVal.str (w.runDoc rid).name)) ∧
    (Dict.lookup (get_dr_host_details w rid hid rname) "drId" = some rid ∧
      Dict.lookup (get_dr_host_details w rid hid rname) "drName" = some rname) := by
  refine ⟨?_, ?_, ?_⟩
  · unfold get_dr_hosts at hd
    obtain ⟨d0, _hd0, rfl⟩ := List.mem_map.mp hd
    constructor
    · rw [Dict.lookup_update_ne _ _ _ _ (by decide)]
      exact Dict.lookup_update_self _ _ _
    · exact Dict.lookup_update_self _ _ _
  · unfold get_dr_host_details
    rw [Dict.lookup_update_ne _ _ _ _ (by decide)]
    exact Dict.lookup_update_self _ _ _
  · unfold get_dr_host_details
    exact Dict.lookup_update_self _ _ _

/-- The first stub `get_dr_hosts wEx 1` returns. -/
def dEx : Dict := [("id", JVal.num 12), ("drId", JVal.num 1), ("drName", JVal.str "run-one")]

/-- Claim C6, witness: that stub carries its parent run id. -/
theorem C6_witness : Dict.lookup dEx "drId" = some (JVal.num 1) :=
  ((C6_parent_tagging wEx (JVal.num 1) (JVal.num 11) (JVal.str "run-one") dEx
    (by decide)).1).1

/-! ## Claim C7 -/

/-- A host record whose `systemRole` is present and truthy. -/
def truthyRole (h : Dict) : Bool :=
  match Dict.lookup h "systemRole" with
  | some v => !v.falsy
  | none => false

/-- Claim C7, counterexample.  A host whose `systemRole` key is **absent** is
not "skipped entirely": `host['systemRole']` raises `KeyError` before the
falsy check, aborting `_add_hosts` — the later valid host is not registered
either, instead of the claimed skip-and-continue. -/
theorem C7_counterexample :
    add_hosts (fun d => d)
      [[("id", JVal.num 3)], [("systemRole", JVal.str "web"), ("id", JVal.num 4)]] =
      .error "KeyError: systemRole" := by
  rfl

/-- Claim C7 (amended): for every host record whose `systemRole` key is
present, a host with a falsy (e.g. empty) role is skipped entirely — it
contributes no registration and processing continues — and the sink receives
exactly the hosts with a present, truthy role, in order, each registered once
with its converted record.  (When some record's `systemRole` is absent,
`_add_hosts` instead raises `KeyError`; the roleless host still never reaches
the sink, but processing aborts rather than skipping it.) -/
theorem C7_roleless_skipped (snake : Dict → Dict) (hosts : List Dict)
    (hall : ∀ h ∈ hosts, (Dict.lookup h "systemRole").isSome) :
    add_hosts snake hosts =
      .ok ((hosts.filter truthyRole).map
        fun h => ((Dict.lookup h "systemRole").getD JVal.null, snake h)) := by
  induction hosts with
  | nil => rfl
  | cons host rest ih =>
    have hh := hall host (List.mem_cons_self _ _)
    have hrest := ih fun h hm => hall h (List.mem_cons_of_mem _ hm)
    cases hlk : Dict.lookup host "systemRole" with
    | none => rw [hlk] at hh; simp at hh
    | some v =>
      unfold add_hosts
      simp only [hlk]
      by_cases hf : v.falsy = true
      · have ht : truthyRole host = false := by simp [truthyRole, hlk, hf]
        simp only [hf, if_true, hrest, List.filter_cons, ht]
        simp
      · have ht : truthyRole host = true := by simp [truthyRole, hlk, hf]
        simp only [hf, if_false, hrest, List.filter_cons, ht, Bool.false_eq_true,
          List.map_cons, hlk]
        simp [hlk]

/-- Claim C7, witness: an empty-role host is dropped, a truthy-role host is
registered. -/
theorem C7_witness :
    add_hosts (fun d => d)
      [[("systemRole", JVal.str ""), ("id", JVal.num 5)],
       [("systemRole", JVal.str "web"), ("id", JVal.num 4)]] =
      .ok [(JVal.str "web", [("systemRole", JVal.str "web"), ("id", JVal.num 4)])] := by
  rw [C7_roleless_skipped (fun d => d)
    [[("systemRole", JVal.str ""), ("id", JVal.num 5)],
     [("systemRole", JVal.str "web"), ("id", JVal.num 4)]] (by decide)]
  rfl

/-! ## Claim C8 -/

/-- Claim C8, counterexample.  `validate_target` accepts the **empty string**
(it only rejects `None` and non-strings), refuting "fails whenever the given
path is empty". -/
theorem C8_counterexample : validate_target (.pystr "") = .ok () := rfl

/-- Claim C8 (amended): `validate_target` raises `Cons3rtClientError` exactly
when the target is `None` or not a string — the empty string passes — and
`http_get` performs this validation before any network activity: on an
invalid target it raises without consulting the attempt oracle at all. -/
theorem C8_validate_target (t : PyTarget) (s : Session) (a1 a2 : Nat → AttemptOutcome) :
    ((∀ str2, t ≠ .pystr str2) →
      validate_target t = .error "Invalid target arg provided" ∧
      http_get s t a1 = .clientError "Invalid target arg provided" 0 ∧
      http_get s t a1 = http_get s t a2) ∧
    (∀ str2, t = .pystr str2 → validate_target t = .ok ()) := by
  constructor
  · intro hns
    cases t with
    | pystr str2 => exact absurd rfl (hns str2)
    | pynone => exact ⟨rfl, rfl, rfl⟩
    | other => exact ⟨rfl, rfl, rfl⟩
  · intro str2 ht
    subst ht
    rfl

/-- Claim C8, witness: a `None` target raises before any attempt is made. -/
theorem C8_witness :
    http_get sessD .pynone attemptsAllFail = .clientError "Invalid target arg provided" 0 :=
  ((C8_validate_target .pynone sessD attemptsAllFail attempts9fail).1
    (by intro str2 h; cases h)).2.1

/-! ## Claim C9 -/

theorem containsSub_status (A ts B H : String) : containsSub (A ++ ts ++ (B ++ H)) ts = true := by
  rw [String.append_assoc]
  exact containsSub_middle _ _ _

theorem containsSub_headers (A ts B H : String) : containsSub (A ++ ts ++ (B ++ H)) H = true := by
  rw [← String.append_assoc (A ++ ts) B H]
  exact containsSub_append_self _ _

/-- On a non-success status, `parse_response` raises with the message built at
lines 134-137. -/
theorem parse_response_error_form (r : Response)
    (h200 : r.status_code ≠ 200) (h202 : r.status_code ≠ 202) :
    parse_response r = .error
      (if r.content ≠ "" then
        "Received HTTP code [" ++ toString r.status_code ++
          ("] with headers:\n" ++ r.headers) ++ ("\nand content:\n" ++ r.content)
      else
        "Received HTTP code [" ++ toString r.status_code ++
          ("] with headers:\n" ++ r.headers)) := by
  unfold parse_response
  by_cases hc : r.content = "" <;> simp [hc, h200, h202]

/-- Claim C9: `parse_response` raises `Cons3rtClientError` if and only if the
status code is neither 200 nor 202; the raised message embeds the status code,
the headers and — when a body is present — the decoded body; on success it
returns the decoded body, or `none` when there is no content. -/
theorem C9_parse_response (r : Response) :
    ((r.status_code = 200 ∨ r.status_code = 202) →
      parse_response r = .ok (if r.content ≠ "" then some r.content else none)) ∧
    (r.status_code ≠ 200 → r.status_code ≠ 202 →
      ∃ msg, parse_response r = .error msg ∧
        containsSub msg (toString r.status_code) = true ∧
        containsSub msg r.headers = true ∧
        (r.content ≠ "" → containsSub msg r.content = true)) := by
  constructor
  · intro h
    unfold parse_response
    rcases h with h | h <;> simp [h]
  · intro h200 h202
    refine ⟨_, parse_response_error_form r h200 h202, ?_, ?_, ?_⟩
    · by_cases hc : r.content = ""
      · simp only [hc, ne_eq, not_true_eq_false, if_false]
        exact containsSub_status _ _ _ _
      · simp only [ne_eq, hc, not_false_eq_true, if_true]
        exact containsSub_append_right _ _ _ (containsSub_status _ _ _ _)
    · by_cases hc : r.content = ""
      · simp only [hc, ne_eq, not_true_eq_false, if_false]
        exact containsSub_headers _ _ _ _
      · simp only [ne_eq, hc, not_false_eq_true, if_true]
        exact containsSub_append_right _ _ _ (containsSub_headers _ _ _ _)
    · intro hc
      simp only [ne_eq, hc, if_true]
      exact containsSub_append_left _ _ _ (containsSub_append_self _ _)

/-- Claim C9, witness: a 404 response with a body raises a message embedding
`404` and the body. -/
theorem C9_witness :
    containsSub "Received HTTP code [404] with headers:\nsomehdrs\nand content:\nnotfound" "404"
        = true ∧
    containsSub "Received HTTP code [404] with headers:\nsomehdrs\nand content:\nnotfound"
        "notfound" = true := by
  obtain ⟨msg, hmsg, hstat, _hhead, hcont⟩ :=
    (C9_parse_response (Response.mk 404 "somehdrs" "notfound")).2 (by decide) (by decide)
  have hval : parse_response (Response.mk 404 "somehdrs" "notfound") =
      .error "Received HTTP code [404] with headers:\nsomehdrs\nand content:\nnotfound" := by
    rfl
  rw [hval] at hmsg
  have hm := Except.error.inj hmsg
  constructor
  · rw [← hm] at hstat
    exact hstat
  · rw [← hm] at hcont
    exact hcont (by decide)

/-! ## Claim C10 -/

/-- Every host in the schedule-free fetch result carries a `drId` drawn from
the stage-1 submission ids (which are exactly the reserved runs' ids). -/
theorem get_hosts_det_drId (w : World) (t1 : List JVal) (hosts : List Dict)
    (ht1 : stage1Tasks w.runs = .ok t1) (hh : get_hosts_det w = .ok hosts) :
    ∀ h ∈ hosts, ∃ j ∈ t1, Dict.lookup h "drId" = some j := by
  intro h hmem
  unfold get_hosts_det at hh
  cases hst2 : stage2Tasks ((t1.map (get_dr_hosts w)).flatten) with
  | error e => simp only [ht1, hst2] at hh; exact Except.noConfusion hh
  | ok t2 =>
    simp only [ht1, hst2, Except.ok.injEq] at hh
    subst hh
    obtain ⟨trip, htrip, rfl⟩ := List.mem_map.mp hmem
    have hlk : Dict.lookup (get_dr_host_details w trip.1 trip.2.1 trip.2.2) "drId" =
        some trip.1 := by
      unfold get_dr_host_details
      rw [Dict.lookup_update_ne _ _ _ _ (by decide)]
      exact Dict.lookup_update_self _ _ _
    obtain ⟨stub, hstub, hstubId⟩ := stage2Tasks_sound _ _ hst2 trip htrip
    obtain ⟨lst, hlst, hstubIn⟩ := List.mem_flatten.mp hstub
    obtain ⟨j, hj, rfl⟩ := List.mem_map.mp hlst
    have hjid := get_dr_hosts_drId w j stub hstubIn
    have hji : j = trip.1 := Option.some.inj (hjid.symm.trans hstubId)
    refine ⟨j, hj, ?_⟩
    rw [hlk, hji]

/-- Claim C10: a run returned by `list_runs` whose `fapStatus` is not the
string `"RESERVED"` (and whose id is not also the id of some reserved run —
run ids are unique in CONS3RT) has no `get_dr_hosts` call made for its id
(stage-1 submissions are exactly the reserved runs' ids) and contributes no
host to the fetched list: no fetched host carries its id as `drId`. -/
theorem C10_nonreserved (w : World) (dr : Dict) (v i : JVal) (t1 : List JVal)
    (hosts : List Dict)
    (_hdr : dr ∈ w.runs)
    (_hstat : Dict.lookup dr "fapStatus" = some v)
    (_hnres : v ≠ JVal.str "RESERVED")
    (_hid : Dict.lookup dr "id" = some i)
    (huniq : ∀ dr2 ∈ w.runs, Dict.lookup dr2 "fapStatus" = some (JVal.str "RESERVED") →
      Dict.lookup dr2 "id" ≠ some i)
    (ht1 : stage1Tasks w.runs = .ok t1)
    (hhosts : get_hosts_det w = .ok hosts) :
    i ∉ t1 ∧ ∀ h ∈ hosts, Dict.lookup h "drId" ≠ some i := by
  have hnot : i ∉ t1 := by
    intro hmem
    obtain ⟨dr2, hdr2, hres2, hid2⟩ := stage1Tasks_sound _ _ ht1 i hmem
    exact huniq dr2 hdr2 hres2 hid2
  refine ⟨hnot, ?_⟩
  intro h hmem heq
  obtain ⟨j, hj, hlk⟩ := get_hosts_det_drId w t1 hosts ht1 hhosts h hmem
  have hji : j = i := Option.some.inj (hlk.symm.trans heq)
  exact hnot (hji ▸ hj)

/-- The detail record of run 1's host 12 in `wEx`. -/
def detailEx : Dict := [("id", JVal.num 12), ("systemRole", JVal.str "db"),
  ("drId", JVal.num 1), ("drName", JVal.str "run-one")]

/-- The full fetched detail list of `wEx`. -/
def hostsEx : List Dict :=
  [detailEx,
   [("id", JVal.num 11), ("systemRole", JVal.str "app"),
    ("drId", JVal.num 1), ("drName", JVal.str "run-one")],
   [("id", JVal.num 21), ("systemRole", JVal.str "web"),
    ("drId", JVal.num 2), ("drName", JVal.str "run-two")]]

/-- Claim C10, witness: the non-reserved run 3 of `wEx` tags no fetched host. -/
theorem C10_witness : Dict.lookup detailEx "drId" ≠ some (JVal.num 3) :=
  (C10_nonreserved wEx [("id", JVal.num 3), ("fapStatus", JVal.str "ACTIVE")]
    (JVal.str "ACTIVE") (JVal.num 3) [JVal.num 1, JVal.num 2] hostsEx
    (by decide) (by decide) (by decide) (by decide) (by decide) (by rfl) (by rfl)).2
    detailEx (by decide)

end Cons3rt
